import Mathlib

/-!
Shallow embedding of the Mastermind zkApp contract
(src/Mastermind.ts) of the recursive-mastermind-zkApp repository.

Field elements are modelled as `Nat`: every packed component handled by the
contract is range-bounded far below the Pallas base field order, so modular
reduction is never reached by the values involved.  `Poseidon.hash` is an
abstract parameter `hash : List Nat → Nat`; a public key is a single `Nat`
and `pk.toFields` is modelled as `[pk]`.

The helper modules `utils.ts` and `stepProgram.ts` are imported by the
contract but are not part of the sources; the definitions marked
"Modelled from the spec" follow spec.md sections 4.1 - 4.3 and the concrete
values exercised by the test file.
-/

namespace Mastermind

/-- Modelled from the spec (4.1): packing of (turnCount, maxAttempts,
isSolved) into one scalar, turn count and max attempts in the low digits,
solved flag on top (`utils.ts` is not under src/). -/
def compressTurnCountMaxAttemptSolved (t m s : Nat) : Nat :=
  t + m * 256 + s * 65536

/-- Modelled from the spec (4.1): inverse unpacking of
`compressTurnCountMaxAttemptSolved`. -/
def separateTurnCountAndMaxAttemptSolved (v : Nat) : Nat × Nat × Nat :=
  (v % 256, v / 256 % 256, v / 65536)

/-- Modelled from the spec (4.1): packing of (rewardAmount, finalizeSlot);
reward (a UInt64) in the high digits, deadline slot (a UInt32) in the low
digits (`utils.ts` is not under src/). -/
def compressRewardAndFinalizeSlot (r fs : Nat) : Nat :=
  r * 4294967296 + fs

/-- Modelled from the spec (4.1): inverse unpacking of
`compressRewardAndFinalizeSlot`. -/
def separateRewardAndFinalizeSlot (v : Nat) : Nat × Nat :=
  (v / 4294967296, v % 4294967296)

/-- Modelled from the spec (4.1): a combination d1 d2 d3 d4 is stored as the
decimal number d1*1000 + d2*100 + d3*10 + d4 (the test file separates
`Field(1234)` into `[1,2,3,4]`).  `utils.ts` is not under src/. -/
def separateCombinationDigits (v : Nat) : List Nat :=
  [v / 1000 % 10, v / 100 % 10, v / 10 % 10, v % 10]

/-- Modelled from the spec (2, 4.1): structural validity of a 4-digit
combination: digit range (nonzero) and pairwise uniqueness
(`utils.ts` is not under src/). -/
def validateCombination (digits : List Nat) : Bool :=
  match digits with
  | [a, b, c, d] =>
    a != 0 && b != 0 && c != 0 && d != 0 &&
    a != b && a != c && a != d && b != c && b != d && c != d
  | _ => false

/-- Remove the first occurrence of `x` from a list (multiset consumption of
solution digits when counting blows). -/
def removeFirst (x : Nat) : List Nat → List Nat
  | [] => []
  | y :: ys => if y = x then ys else y :: removeFirst x ys

/-- Modelled from the spec (4.2): second pass over the guess/solution pairs.
A matched position is a hit (2); an unmatched guess digit still present in
the pool of unmatched solution digits is a blow (1), consuming one
occurrence; anything else is a miss (0). -/
def cluePass : List (Nat × Nat) → List Nat → List Nat
  | [], _ => []
  | p :: rest, pool =>
    if p.1 = p.2 then 2 :: cluePass rest pool
    else if p.1 ∈ pool then 1 :: cluePass rest (removeFirst p.1 pool)
    else 0 :: cluePass rest pool

/-- Modelled from the spec (4.2): exact-position pass, then multiset pass
over the remaining unmatched solution digits (`utils.ts` is not under
src/). -/
def getClueFromGuess (guess solution : List Nat) : List Nat :=
  let pairs := List.zip guess solution
  cluePass pairs ((pairs.filter fun p => p.1 != p.2).map Prod.snd)

/-- Modelled from the spec (4.2): solved iff every clue position is a hit. -/
def checkIfSolved (clue : List Nat) : Bool :=
  clue.all fun c => c == 2

/-- Modelled from the spec (4.1): clue digits (each in 0..2) packed in base
4, lowest position first (the test file equates the all-hits clue with
`serializeClue([2,2,2,2])`). -/
def serializeClue (clue : List Nat) : Nat :=
  clue.foldr (fun c acc => c + 4 * acc) 0

/-- Modelled from the spec (4.1): inverse of `serializeClue`. -/
def deserializeClue (v : Nat) : List Nat :=
  [v % 4, v / 4 % 4, v / 16 % 4, v / 64 % 4]

/-- GAME_DURATION constant of src/Mastermind.ts (10 slots). -/
def GAME_DURATION : Nat := 10

/-- The eight on-chain state fields of MastermindZkApp, in declaration
order.  The two compressed slots hold the packed scalars exactly as the
contract stores them. -/
structure GameState where
  turnCountMaxAttemptsIsSolved : Nat
  codeMasterId : Nat
  codeBreakerId : Nat
  refereeId : Nat
  solutionHash : Nat
  unseparatedGuess : Nat
  serializedClue : Nat
  rewardFinalizeSlot : Nat
deriving DecidableEq

/-- Turn count component read from the compressed slot, as every contract
method reads it through `separateTurnCountAndMaxAttemptSolved`. -/
def GameState.turnCount (st : GameState) : Nat :=
  (separateTurnCountAndMaxAttemptSolved st.turnCountMaxAttemptsIsSolved).1

/-- Max attempts component of the compressed slot. -/
def GameState.maxAttempts (st : GameState) : Nat :=
  (separateTurnCountAndMaxAttemptSolved st.turnCountMaxAttemptsIsSolved).2.1

/-- Solved flag component of the compressed slot. -/
def GameState.isSolved (st : GameState) : Nat :=
  (separateTurnCountAndMaxAttemptSolved st.turnCountMaxAttemptsIsSolved).2.2

/-- Reward component of the compressed reward/finalize slot. -/
def GameState.rewardAmount (st : GameState) : Nat :=
  (separateRewardAndFinalizeSlot st.rewardFinalizeSlot).1

/-- Finalize-slot component of the compressed reward/finalize slot. -/
def GameState.finalizeSlot (st : GameState) : Nat :=
  (separateRewardAndFinalizeSlot st.rewardFinalizeSlot).2

/-- The public output carried by a StepProgramProof, with exactly the fields
the contract reads (`stepProgram.ts` is not under src/; the shape is fixed
by its uses in src/Mastermind.ts and by spec 3 "StepTrace"). -/
structure PublicOutput where
  codeMasterId : Nat
  codeBreakerId : Nat
  solutionHash : Nat
  lastGuess : Nat
  serializedClue : Nat
  turnCount : Nat
deriving DecidableEq

/-- initGame (src/Mastermind.ts): requires the account not yet initialized
(provedState false), zeroes the whole state via `super.init()`, requires
5 ≤ maxAttempts ≤ 15, stores the packed turn state and the referee id.
`isInit` models `this.account.provedState`. -/
def initGame (hash : List Nat → Nat) (maxAttempts refereePk : Nat)
    (isInit : Bool) : Option GameState :=
  if isInit = false then
  if 5 ≤ maxAttempts then
  if maxAttempts ≤ 15 then
    some { turnCountMaxAttemptsIsSolved :=
             compressTurnCountMaxAttemptSolved 0 maxAttempts 0
           codeMasterId := 0
           codeBreakerId := 0
           refereeId := hash [refereePk]
           solutionHash := 0
           unseparatedGuess := 0
           serializedClue := 0
           rewardFinalizeSlot := 0 }
  else none else none else none

/-- createGame (src/Mastermind.ts): requires initialized and turnCount = 0,
validates the secret combination, stores the solution hash and the
codeMaster id, increments turnCount, escrows `reward` from the sender and
stores it packed with finalizeSlot = 0. -/
def createGame (hash : List Nat → Nat) (sender secret salt reward : Nat)
    (isInit : Bool) (st : GameState) : Option GameState :=
  if isInit = true then
  if st.turnCount = 0 then
  if validateCombination (separateCombinationDigits secret) = true then
    -- the sender's signed account update transfers `reward` to the contract
    some { st with
           solutionHash := hash (separateCombinationDigits secret ++ [salt])
           codeMasterId := hash [sender]
           turnCountMaxAttemptsIsSolved :=
             compressTurnCountMaxAttemptSolved (st.turnCount + 1)
               st.maxAttempts st.isSolved
           rewardFinalizeSlot := compressRewardAndFinalizeSlot reward 0 }
  else none else none else none

/-- acceptGame (src/Mastermind.ts): requires initialized, codeBreakerId = 0
and turnCount = 1; escrows the stored rewardAmount from the sender (the
second component of the result), binds codeBreakerId, doubles the stored
reward and sets finalizeSlot to the current slot plus GAME_DURATION.  The
two arithmetic guards model the UInt64/UInt32 range checks performed by
`rewardAmount.mul(2)` and `currentSlot.add(GAME_DURATION)` in o1js. -/
def acceptGame (hash : List Nat → Nat) (slot sender : Nat)
    (isInit : Bool) (st : GameState) : Option (GameState × Nat) :=
  if isInit = true then
  if st.codeBreakerId = 0 then
  if st.turnCount = 1 then
  if st.rewardAmount * 2 < 18446744073709551616 then
  if slot + GAME_DURATION < 4294967296 then
    some ({ st with
            codeBreakerId := hash [sender]
            rewardFinalizeSlot :=
              compressRewardAndFinalizeSlot (st.rewardAmount * 2)
                (slot + GAME_DURATION) },
          st.rewardAmount)
  else none else none else none else none else none

/-- submitGameProof (src/Mastermind.ts): requires initialized, accepted
(codeBreakerId nonzero), not finalized (slot < finalizeSlot) and not
solved; `out` is the public output of the proof after `proof.verify()`
succeeded.  Requires the bound ids and the solution hash to match the
on-chain values and the proof turn count to strictly exceed the stored
one; then adopts the proof turn count, last guess and serialized clue,
recomputing the solved flag. -/
def submitGameProof (slot : Nat) (out : PublicOutput)
    (isInit : Bool) (st : GameState) : Option GameState :=
  if isInit = true then
  if st.codeBreakerId ≠ 0 then
  if slot < st.finalizeSlot then
  if st.isSolved = 0 then
  if out.codeBreakerId = st.codeBreakerId then
  if out.codeMasterId = st.codeMasterId then
  if out.solutionHash = st.solutionHash then
  if st.turnCount < out.turnCount then
    some { st with
           codeBreakerId := out.codeBreakerId
           unseparatedGuess := out.lastGuess
           serializedClue := out.serializedClue
           turnCountMaxAttemptsIsSolved :=
             compressTurnCountMaxAttemptSolved out.turnCount st.maxAttempts
               (if checkIfSolved (deserializeClue out.serializedClue) = true ∧
                   ¬ st.maxAttempts * 2 ≤ out.turnCount
                then 1 else 0) }
  else none else none else none else none else none else none else none
  else none

/-- claimReward (src/Mastermind.ts): no provedState check; requires
slot ≥ finalizeSlot (`assertFinalized`), the sender to be codeMaster or
codeBreaker, and the sender to be the winner (codeMaster if unsolved,
codeBreaker if solved); sends the stored rewardAmount (second component)
to the sender.  No state field is written. -/
def claimReward (hash : List Nat → Nat) (slot sender : Nat)
    (st : GameState) : Option (GameState × Nat) :=
  if st.finalizeSlot ≤ slot then
  if st.codeMasterId = hash [sender] ∨ st.codeBreakerId = hash [sender] then
  if (st.codeMasterId = hash [sender] ∧ st.isSolved = 0) ∨
     (st.codeBreakerId = hash [sender] ∧ st.isSolved = 1) then
    some (st, st.rewardAmount)
  else none else none else none

/-- penalizeCodeBreaker (src/Mastermind.ts): requires initialized, the
sender to be the referee and the supplied public key to hash to the stored
codeMasterId; sends the stored rewardAmount (second component) to that
public key.  No state field is written. -/
def penalizeCodeBreaker (hash : List Nat → Nat)
    (sender codeMasterPubKey : Nat) (isInit : Bool)
    (st : GameState) : Option (GameState × Nat) :=
  if isInit = true then
  if st.refereeId = hash [sender] then
  if st.codeMasterId = hash [codeMasterPubKey] then
    some (st, st.rewardAmount)
  else none else none else none

/-- penalizeCodeMaster (src/Mastermind.ts): requires initialized, the
sender to be the referee and the supplied public key to hash to the stored
codeBreakerId; sends the stored rewardAmount (second component) to that
public key.  No state field is written. -/
def penalizeCodeMaster (hash : List Nat → Nat)
    (sender codeBreakerPubKey : Nat) (isInit : Bool)
    (st : GameState) : Option (GameState × Nat) :=
  if isInit = true then
  if st.refereeId = hash [sender] then
  if st.codeBreakerId = hash [codeBreakerPubKey] then
    some (st, st.rewardAmount)
  else none else none else none

/-- makeGuess (src/Mastermind.ts): requires initialized, not finalized, not
solved, an odd turn count below 2 * maxAttempts, and a valid guess.  The
`setCodeBreakerId` closure runs unconditionally while `Provable.if` selects
which value the subsequent equality assertion compares against: the freshly
computed sender id when turnCount = 1, the stored codeBreakerId otherwise.
Hence on success codeBreakerId always ends up equal to the sender's id. -/
def makeGuess (hash : List Nat → Nat) (slot sender guess : Nat)
    (isInit : Bool) (st : GameState) : Option GameState :=
  if isInit = true then
  if slot < st.finalizeSlot then
  if st.isSolved = 0 then
  if st.turnCount % 2 = 1 then
  if st.turnCount < st.maxAttempts * 2 then
  if hash [sender] =
       (if st.turnCount = 1 then hash [sender] else st.codeBreakerId) then
  if validateCombination (separateCombinationDigits guess) = true then
    some { st with
           codeBreakerId := hash [sender]
           unseparatedGuess := guess
           turnCountMaxAttemptsIsSolved :=
             compressTurnCountMaxAttemptSolved (st.turnCount + 1)
               st.maxAttempts st.isSolved }
  else none else none else none else none else none else none else none

/-- giveClue (src/Mastermind.ts): requires initialized, not finalized, the
sender to be the codeMaster, turnCount ≤ 2 * maxAttempts, not solved, an
even nonzero turn count, and the supplied secret digits and salt to hash to
the stored solutionHash; computes the clue against the stored guess, stores
it serialized, increments turnCount and sets the solved flag iff the clue
is all hits. -/
def giveClue (hash : List Nat → Nat) (slot sender secret salt : Nat)
    (isInit : Bool) (st : GameState) : Option GameState :=
  if isInit = true then
  if slot < st.finalizeSlot then
  if st.codeMasterId = hash [sender] then
  if st.turnCount ≤ st.maxAttempts * 2 then
  if st.isSolved = 0 then
  if st.turnCount ≠ 0 ∧ st.turnCount % 2 = 0 then
  if st.solutionHash = hash (separateCombinationDigits secret ++ [salt]) then
    some { st with
           serializedClue :=
             serializeClue (getClueFromGuess
               (separateCombinationDigits st.unseparatedGuess)
               (separateCombinationDigits secret))
           turnCountMaxAttemptsIsSolved :=
             compressTurnCountMaxAttemptSolved (st.turnCount + 1)
               st.maxAttempts
               (if checkIfSolved (getClueFromGuess
                     (separateCombinationDigits st.unseparatedGuess)
                     (separateCombinationDigits secret)) = true
                then 1 else 0) }
  else none else none else none else none else none else none else none

/-- Full account state: the eight state fields together with the
`provedState` flag consulted by the methods. -/
structure ContractState where
  initialized : Bool
  game : GameState
deriving DecidableEq

/-- The account right after deployment: provedState false, every state
field zero. -/
def initialState : ContractState :=
  ⟨false, ⟨0, 0, 0, 0, 0, 0, 0, 0⟩⟩

/-- One external call to the contract, with its environment (current global
slot, signer public key) and arguments. -/
inductive Action where
  | initGame (maxAttempts refereePk : Nat)
  | createGame (sender secret salt reward : Nat)
  | acceptGame (slot sender : Nat)
  | submitGameProof (slot : Nat) (out : PublicOutput)
  | claimReward (slot sender : Nat)
  | penalizeCodeBreaker (sender codeMasterPubKey : Nat)
  | penalizeCodeMaster (sender codeBreakerPubKey : Nat)
  | makeGuess (slot sender guess : Nat)
  | giveClue (slot sender secret salt : Nat)
deriving DecidableEq

/-- Effect of one call on the account state (payouts and escrows dropped).
A successful proven method leaves provedState true; `initGame` turns it
true.  For `submitGameProof` the guard `out.turnCount < 256` is modelled
from the spec: `stepProgram.ts` is not under src/, and by spec 4.1/4.3 a
verified step-proof output carries a turn count produced by unit
increments inside the codec range. -/
def stepFn (hash : List Nat → Nat) (a : Action) (s : ContractState) :
    Option ContractState :=
  match a with
  | .initGame m r =>
      (initGame hash m r s.initialized).map fun g => ⟨true, g⟩
  | .createGame sender secret salt reward =>
      (createGame hash sender secret salt reward s.initialized s.game).map
        fun g => ⟨s.initialized, g⟩
  | .acceptGame slot sender =>
      (acceptGame hash slot sender s.initialized s.game).map
        fun p => ⟨s.initialized, p.1⟩
  | .submitGameProof slot out =>
      if out.turnCount < 256 then
        (submitGameProof slot out s.initialized s.game).map
          fun g => ⟨s.initialized, g⟩
      else none
  | .claimReward slot sender =>
      (claimReward hash slot sender s.game).map fun p => ⟨s.initialized, p.1⟩
  | .penalizeCodeBreaker sender pk =>
      (penalizeCodeBreaker hash sender pk s.initialized s.game).map
        fun p => ⟨s.initialized, p.1⟩
  | .penalizeCodeMaster sender pk =>
      (penalizeCodeMaster hash sender pk s.initialized s.game).map
        fun p => ⟨s.initialized, p.1⟩
  | .makeGuess slot sender guess =>
      (makeGuess hash slot sender guess s.initialized s.game).map
        fun g => ⟨s.initialized, g⟩
  | .giveClue slot sender secret salt =>
      (giveClue hash slot sender secret salt s.initialized s.game).map
        fun g => ⟨s.initialized, g⟩

/-- States reachable from the freshly deployed account by successful
calls. -/
inductive Reachable (hash : List Nat → Nat) : ContractState → Prop
  | base : Reachable hash initialState
  | step {s s' : ContractState} {a : Action} :
      Reachable hash s → stepFn hash a s = some s' → Reachable hash s'

/-- Run a list of calls in order, failing if any call fails. -/
def runActions (hash : List Nat → Nat) :
    List Action → ContractState → Option ContractState
  | [], s => some s
  | a :: rest, s =>
      match stepFn hash a s with
      | none => none
      | some s' => runActions hash rest s'

theorem reachable_runActions (hash : List Nat → Nat) :
    ∀ (acts : List Action) (s s' : ContractState),
      Reachable hash s → runActions hash acts s = some s' →
      Reachable hash s' := by
  intro acts
  induction acts with
  | nil =>
      intro s s' hr h
      simp only [runActions] at h
      exact (Option.some.inj h) ▸ hr
  | cons a rest ih =>
      intro s s' hr h
      simp only [runActions] at h
      cases hstep : stepFn hash a s with
      | none => rw [hstep] at h; exact absurd h (by simp)
      | some s1 =>
          rw [hstep] at h
          exact ih s1 s' (Reachable.step hr hstep) h

/-- Unpacking inverts packing of the turn state when the turn count and the
max attempts each fit in their digit. -/
theorem separate_compress_tms (t m s : Nat) (ht : t < 256) (hm : m < 256) :
    separateTurnCountAndMaxAttemptSolved
      (compressTurnCountMaxAttemptSolved t m s) = (t, m, s) := by
  simp only [separateTurnCountAndMaxAttemptSolved,
    compressTurnCountMaxAttemptSolved, Prod.mk.injEq]
  refine ⟨?_, ?_, ?_⟩ <;> omega

/-- Unpacking inverts packing of the reward/finalize slot when the slot
fits in 32 bits. -/
theorem separate_compress_rfs (r fs : Nat) (hfs : fs < 4294967296) :
    separateRewardAndFinalizeSlot (compressRewardAndFinalizeSlot r fs) =
      (r, fs) := by
  simp only [separateRewardAndFinalizeSlot, compressRewardAndFinalizeSlot,
    Prod.mk.injEq]
  constructor <;> omega

/-- Read the turn-state components of a state whose compressed slot is a
packing of in-range components. -/
theorem tms_eq {g : GameState} {t m s : Nat}
    (h : g.turnCountMaxAttemptsIsSolved =
      compressTurnCountMaxAttemptSolved t m s)
    (ht : t < 256) (hm : m < 256) :
    g.turnCount = t ∧ g.maxAttempts = m ∧ g.isSolved = s := by
  unfold GameState.turnCount GameState.maxAttempts GameState.isSolved
  rw [h, separate_compress_tms t m s ht hm]
  exact ⟨rfl, rfl, rfl⟩

/-- Read the reward/finalize components of a state whose compressed slot is
a packing with an in-range slot. -/
theorem rfs_eq {g : GameState} {r f : Nat}
    (h : g.rewardFinalizeSlot = compressRewardAndFinalizeSlot r f)
    (u : f < 4294967296) :
    g.rewardAmount = r ∧ g.finalizeSlot = f := by
  unfold GameState.rewardAmount GameState.finalizeSlot
  rw [h, separate_compress_rfs r f u]
  exact ⟨rfl, rfl⟩

/-- Success characterization of `initGame`. -/
theorem initGame_some {hash : List Nat → Nat} {m r : Nat} {isInit : Bool}
    {g : GameState} (h : initGame hash m r isInit = some g) :
    isInit = false ∧ 5 ≤ m ∧ m ≤ 15 ∧
    g = { turnCountMaxAttemptsIsSolved :=
            compressTurnCountMaxAttemptSolved 0 m 0
          codeMasterId := 0
          codeBreakerId := 0
          refereeId := hash [r]
          solutionHash := 0
          unseparatedGuess := 0
          serializedClue := 0
          rewardFinalizeSlot := 0 } := by
  unfold initGame at h
  simp only [Option.ite_none_right_eq_some, Option.some.injEq] at h
  obtain ⟨h1, h2, h3, hg⟩ := h
  exact ⟨h1, h2, h3, hg.symm⟩

/-- Success characterization of `createGame`. -/
theorem createGame_some {hash : List Nat → Nat}
    {sender secret salt reward : Nat} {isInit : Bool} {st g : GameState}
    (h : createGame hash sender secret salt reward isInit st = some g) :
    isInit = true ∧ st.turnCount = 0 ∧
    validateCombination (separateCombinationDigits secret) = true ∧
    g = { st with
          solutionHash := hash (separateCombinationDigits secret ++ [salt])
          codeMasterId := hash [sender]
          turnCountMaxAttemptsIsSolved :=
            compressTurnCountMaxAttemptSolved (st.turnCount + 1)
              st.maxAttempts st.isSolved
          rewardFinalizeSlot := compressRewardAndFinalizeSlot reward 0 } := by
  unfold createGame at h
  simp only [Option.ite_none_right_eq_some, Option.some.injEq] at h
  obtain ⟨h1, h2, h3, hg⟩ := h
  exact ⟨h1, h2, h3, hg.symm⟩

/-- Success characterization of `acceptGame`. -/
theorem acceptGame_some {hash : List Nat → Nat} {slot sender : Nat}
    {isInit : Bool} {st : GameState} {p : GameState × Nat}
    (h : acceptGame hash slot sender isInit st = some p) :
    isInit = true ∧ st.codeBreakerId = 0 ∧ st.turnCount = 1 ∧
    st.rewardAmount * 2 < 18446744073709551616 ∧
    slot + GAME_DURATION < 4294967296 ∧
    p = ({ st with
           codeBreakerId := hash [sender]
           rewardFinalizeSlot :=
             compressRewardAndFinalizeSlot (st.rewardAmount * 2)
               (slot + GAME_DURATION) },
         st.rewardAmount) := by
  unfold acceptGame at h
  simp only [Option.ite_none_right_eq_some, Option.some.injEq] at h
  obtain ⟨h1, h2, h3, h4, h5, hg⟩ := h
  exact ⟨h1, h2, h3, h4, h5, hg.symm⟩

/-- Success characterization of `submitGameProof`. -/
theorem submitGameProof_some {slot : Nat} {out : PublicOutput}
    {isInit : Bool} {st g : GameState}
    (h : submitGameProof slot out isInit st = some g) :
    isInit = true ∧ st.codeBreakerId ≠ 0 ∧ slot < st.finalizeSlot ∧
    st.isSolved = 0 ∧ out.codeBreakerId = st.codeBreakerId ∧
    out.codeMasterId = st.codeMasterId ∧
    out.solutionHash = st.solutionHash ∧ st.turnCount < out.turnCount ∧
    g = { st with
          codeBreakerId := out.codeBreakerId
          unseparatedGuess := out.lastGuess
          serializedClue := out.serializedClue
          turnCountMaxAttemptsIsSolved :=
            compressTurnCountMaxAttemptSolved out.turnCount st.maxAttempts
              (if checkIfSolved (deserializeClue out.serializedClue) = true ∧
                  ¬ st.maxAttempts * 2 ≤ out.turnCount
               then 1 else 0) } := by
  unfold submitGameProof at h
  simp only [Option.ite_none_right_eq_some, Option.some.injEq] at h
  obtain ⟨h1, h2, h3, h4, h5, h6, h7, h8, hg⟩ := h
  exact ⟨h1, h2, h3, h4, h5, h6, h7, h8, hg.symm⟩

/-- Success characterization of `claimReward`. -/
theorem claimReward_some {hash : List Nat → Nat} {slot sender : Nat}
    {st : GameState} {p : GameState × Nat}
    (h : claimReward hash slot sender st = some p) :
    st.finalizeSlot ≤ slot ∧
    (st.codeMasterId = hash [sender] ∨ st.codeBreakerId = hash [sender]) ∧
    ((st.codeMasterId = hash [sender] ∧ st.isSolved = 0) ∨
     (st.codeBreakerId = hash [sender] ∧ st.isSolved = 1)) ∧
    p = (st, st.rewardAmount) := by
  unfold claimReward at h
  simp only [Option.ite_none_right_eq_some, Option.some.injEq] at h
  obtain ⟨h1, h2, h3, hg⟩ := h
  exact ⟨h1, h2, h3, hg.symm⟩

/-- Success characterization of `penalizeCodeBreaker`. -/
theorem penalizeCodeBreaker_some {hash : List Nat → Nat}
    {sender pk : Nat} {isInit : Bool} {st : GameState} {p : GameState × Nat}
    (h : penalizeCodeBreaker hash sender pk isInit st = some p) :
    isInit = true ∧ st.refereeId = hash [sender] ∧
    st.codeMasterId = hash [pk] ∧ p = (st, st.rewardAmount) := by
  unfold penalizeCodeBreaker at h
  simp only [Option.ite_none_right_eq_some, Option.some.injEq] at h
  obtain ⟨h1, h2, h3, hg⟩ := h
  exact ⟨h1, h2, h3, hg.symm⟩

/-- Success characterization of `penalizeCodeMaster`. -/
theorem penalizeCodeMaster_some {hash : List Nat → Nat}
    {sender pk : Nat} {isInit : Bool} {st : GameState} {p : GameState × Nat}
    (h : penalizeCodeMaster hash sender pk isInit st = some p) :
    isInit = true ∧ st.refereeId = hash [sender] ∧
    st.codeBreakerId = hash [pk] ∧ p = (st, st.rewardAmount) := by
  unfold penalizeCodeMaster at h
  simp only [Option.ite_none_right_eq_some, Option.some.injEq] at h
  obtain ⟨h1, h2, h3, hg⟩ := h
  exact ⟨h1, h2, h3, hg.symm⟩

/-- Success characterization of `makeGuess`. -/
theorem makeGuess_some {hash : List Nat → Nat} {slot sender guess : Nat}
    {isInit : Bool} {st g : GameState}
    (h : makeGuess hash slot sender guess isInit st = some g) :
    isInit = true ∧ slot < st.finalizeSlot ∧ st.isSolved = 0 ∧
    st.turnCount % 2 = 1 ∧ st.turnCount < st.maxAttempts * 2 ∧
    (st.turnCount = 1 ∨ hash [sender] = st.codeBreakerId) ∧
    validateCombination (separateCombinationDigits guess) = true ∧
    g = { st with
          codeBreakerId := hash [sender]
          unseparatedGuess := guess
          turnCountMaxAttemptsIsSolved :=
            compressTurnCountMaxAttemptSolved (st.turnCount + 1)
              st.maxAttempts st.isSolved } := by
  unfold makeGuess at h
  simp only [Option.ite_none_right_eq_some, Option.some.injEq] at h
  obtain ⟨h1, h2, h3, h4, h5, h6, h7, hg⟩ := h
  refine ⟨h1, h2, h3, h4, h5, ?_, h7, hg.symm⟩
  by_cases hc : st.turnCount = 1
  · exact Or.inl hc
  · rw [if_neg hc] at h6
    exact Or.inr h6

/-- Success characterization of `giveClue`. -/
theorem giveClue_some {hash : List Nat → Nat} {slot sender secret salt : Nat}
    {isInit : Bool} {st g : GameState}
    (h : giveClue hash slot sender secret salt isInit st = some g) :
    isInit = true ∧ slot < st.finalizeSlot ∧
    st.codeMasterId = hash [sender] ∧
    st.turnCount ≤ st.maxAttempts * 2 ∧ st.isSolved = 0 ∧
    (st.turnCount ≠ 0 ∧ st.turnCount % 2 = 0) ∧
    st.solutionHash = hash (separateCombinationDigits secret ++ [salt]) ∧
    g = { st with
          serializedClue :=
            serializeClue (getClueFromGuess
              (separateCombinationDigits st.unseparatedGuess)
              (separateCombinationDigits secret))
          turnCountMaxAttemptsIsSolved :=
            compressTurnCountMaxAttemptSolved (st.turnCount + 1)
              st.maxAttempts
              (if checkIfSolved (getClueFromGuess
                    (separateCombinationDigits st.unseparatedGuess)
                    (separateCombinationDigits secret)) = true
               then 1 else 0) } := by
  unfold giveClue at h
  simp only [Option.ite_none_right_eq_some, Option.some.injEq] at h
  obtain ⟨h1, h2, h3, h4, h5, h6, h7, hg⟩ := h
  exact ⟨h1, h2, h3, h4, h5, h6, h7, hg.symm⟩

/-- Components of the turn-state slot only depend on that slot. -/
theorem tms_congr {a b : GameState}
    (h : a.turnCountMaxAttemptsIsSolved = b.turnCountMaxAttemptsIsSolved) :
    a.turnCount = b.turnCount ∧ a.maxAttempts = b.maxAttempts ∧
    a.isSolved = b.isSolved := by
  unfold GameState.turnCount GameState.maxAttempts GameState.isSolved
  rw [h]
  exact ⟨rfl, rfl, rfl⟩

/-- Components of the reward/finalize slot only depend on that slot. -/
theorem rfs_congr {a b : GameState}
    (h : a.rewardFinalizeSlot = b.rewardFinalizeSlot) :
    a.rewardAmount = b.rewardAmount ∧ a.finalizeSlot = b.finalizeSlot := by
  unfold GameState.rewardAmount GameState.finalizeSlot
  rw [h]
  exact ⟨rfl, rfl⟩

/-- Range and shape invariant of reachable account states: the packed
components stay inside their codec digits, an uninitialized account is
still all zero, an accepted game has been created, and a solved game has
seen at least one guess and one clue. -/
def WF (s : ContractState) : Prop :=
  s.game.turnCount < 256 ∧ s.game.maxAttempts ≤ 15 ∧
  s.game.isSolved ≤ 1 ∧ s.game.finalizeSlot < 4294967296 ∧
  (s.initialized = false → s.game = initialState.game) ∧
  (s.game.codeBreakerId ≠ 0 → 1 ≤ s.game.turnCount) ∧
  (s.game.isSolved = 1 → 2 ≤ s.game.turnCount)

theorem reachable_wf {hash : List Nat → Nat} {s : ContractState}
    (h : Reachable hash s) : WF s := by
  induction h with
  | base => unfold WF; decide
  | step hrec hstep ih =>
    rename_i s s' a
    obtain ⟨iht, ihm, ihs, ihf, ihinit, ihcb, ihsol⟩ := ih
    cases a with
    | initGame m r =>
      simp only [stepFn] at hstep
      obtain ⟨g, hsome, hmk⟩ := Option.map_eq_some'.mp hstep
      obtain ⟨hinit, h5, h15, hg⟩ := initGame_some hsome
      obtain ⟨e1, e2, e3⟩ := tms_eq (g := g) (t := 0) (m := m) (s := 0)
        (by rw [hg]) (by omega) (by omega)
      obtain ⟨f1, f2⟩ := rfs_eq (g := g) (r := 0) (f := 0)
        (by rw [hg]; rfl) (by norm_num)
      subst hmk
      unfold WF
      dsimp only
      refine ⟨by omega, by omega, by omega, by omega, ?_, ?_, ?_⟩
      · intro hc; exact Bool.noConfusion hc
      · intro hc; rw [hg] at hc; exact absurd rfl hc
      · intro hc; omega
    | createGame sender secret salt reward =>
      simp only [stepFn] at hstep
      obtain ⟨g, hsome, hmk⟩ := Option.map_eq_some'.mp hstep
      obtain ⟨hinit, htc0, hval, hg⟩ := createGame_some hsome
      obtain ⟨e1, e2, e3⟩ := tms_eq (g := g)
        (t := s.game.turnCount + 1) (m := s.game.maxAttempts)
        (s := s.game.isSolved) (by rw [hg]) (by omega) (by omega)
      obtain ⟨f1, f2⟩ := rfs_eq (g := g) (r := reward) (f := 0)
        (by rw [hg]) (by norm_num)
      subst hmk
      unfold WF
      dsimp only
      refine ⟨by omega, by omega, by omega, by omega, ?_, ?_, ?_⟩
      · intro hc; rw [hinit] at hc; exact Bool.noConfusion hc
      · intro _; omega
      · intro hc
        rw [e3] at hc
        exact absurd (ihsol hc) (by omega)
    | acceptGame slot sender =>
      simp only [stepFn] at hstep
      obtain ⟨p, hsome, hmk⟩ := Option.map_eq_some'.mp hstep
      obtain ⟨hinit, hcb0, htc1, hrw, hslot, hp⟩ := acceptGame_some hsome
      obtain ⟨e1, e2, e3⟩ := tms_congr (a := p.1) (b := s.game) (by rw [hp])
      obtain ⟨f1, f2⟩ := rfs_eq (g := p.1) (r := s.game.rewardAmount * 2)
        (f := slot + GAME_DURATION) (by rw [hp]) hslot
      subst hmk
      unfold WF
      dsimp only
      refine ⟨by omega, by omega, by omega, by omega, ?_, ?_, ?_⟩
      · intro hc; rw [hinit] at hc; exact Bool.noConfusion hc
      · intro _; omega
      · intro hc; rw [e3] at hc; have := ihsol hc; omega
    | submitGameProof slot out =>
      simp only [stepFn] at hstep
      split at hstep
      case isFalse => exact Option.noConfusion hstep
      case isTrue hc =>
        obtain ⟨g, hsome, hmk⟩ := Option.map_eq_some'.mp hstep
        obtain ⟨hinit, hcb, hnf, hs0, ho1, ho2, ho3, hgt, hg⟩ :=
          submitGameProof_some hsome
        obtain ⟨e1, e2, e3⟩ := tms_eq (g := g) (t := out.turnCount)
          (m := s.game.maxAttempts) (by rw [hg]) hc (by omega)
        obtain ⟨f1, f2⟩ := rfs_congr (a := g) (b := s.game) (by rw [hg])
        have hflag : (if checkIfSolved (deserializeClue out.serializedClue) =
            true ∧ ¬ s.game.maxAttempts * 2 ≤ out.turnCount
            then 1 else 0) ≤ 1 := by split <;> omega
        have hcb1 : 1 ≤ s.game.turnCount := ihcb hcb
        subst hmk
        unfold WF
        dsimp only
        refine ⟨by omega, by omega, by omega, by omega, ?_, ?_, ?_⟩
        · intro hfalse; rw [hinit] at hfalse; exact Bool.noConfusion hfalse
        · intro _; omega
        · intro h1; omega
    | claimReward slot sender =>
      simp only [stepFn] at hstep
      obtain ⟨p, hsome, hmk⟩ := Option.map_eq_some'.mp hstep
      obtain ⟨-, -, -, hp⟩ := claimReward_some hsome
      rw [hp] at hmk
      subst hmk
      exact ⟨iht, ihm, ihs, ihf, ihinit, ihcb, ihsol⟩
    | penalizeCodeBreaker sender pk =>
      simp only [stepFn] at hstep
      obtain ⟨p, hsome, hmk⟩ := Option.map_eq_some'.mp hstep
      obtain ⟨-, -, -, hp⟩ := penalizeCodeBreaker_some hsome
      rw [hp] at hmk
      subst hmk
      exact ⟨iht, ihm, ihs, ihf, ihinit, ihcb, ihsol⟩
    | penalizeCodeMaster sender pk =>
      simp only [stepFn] at hstep
      obtain ⟨p, hsome, hmk⟩ := Option.map_eq_some'.mp hstep
      obtain ⟨-, -, -, hp⟩ := penalizeCodeMaster_some hsome
      rw [hp] at hmk
      subst hmk
      exact ⟨iht, ihm, ihs, ihf, ihinit, ihcb, ihsol⟩
    | makeGuess slot sender guess =>
      simp only [stepFn] at hstep
      obtain ⟨g, hsome, hmk⟩ := Option.map_eq_some'.mp hstep
      obtain ⟨hinit, hnf, hs0, hpar, hlt, hwho, hval, hg⟩ :=
        makeGuess_some hsome
      obtain ⟨e1, e2, e3⟩ := tms_eq (g := g)
        (t := s.game.turnCount + 1) (m := s.game.maxAttempts)
        (s := s.game.isSolved) (by rw [hg]) (by omega) (by omega)
      obtain ⟨f1, f2⟩ := rfs_congr (a := g) (b := s.game) (by rw [hg])
      subst hmk
      unfold WF
      dsimp only
      refine ⟨by omega, by omega, by omega, by omega, ?_, ?_, ?_⟩
      · intro hfalse; rw [hinit] at hfalse; exact Bool.noConfusion hfalse
      · intro _; omega
      · intro h1; omega
    | giveClue slot sender secret salt =>
      simp only [stepFn] at hstep
      obtain ⟨g, hsome, hmk⟩ := Option.map_eq_some'.mp hstep
      obtain ⟨hinit, hnf, hcm, hle, hs0, hpar, hsol, hg⟩ :=
        giveClue_some hsome
      obtain ⟨e1, e2, e3⟩ := tms_eq (g := g)
        (t := s.game.turnCount + 1) (m := s.game.maxAttempts) (by rw [hg])
        (by omega) (by omega)
      obtain ⟨f1, f2⟩ := rfs_congr (a := g) (b := s.game) (by rw [hg])
      have hflag : (if checkIfSolved (getClueFromGuess
          (separateCombinationDigits s.game.unseparatedGuess)
          (separateCombinationDigits secret)) = true
          then 1 else 0) ≤ 1 := by split <;> omega
      subst hmk
      unfold WF
      dsimp only
      refine ⟨by omega, by omega, by omega, by omega, ?_, ?_, ?_⟩
      · intro hfalse; rw [hinit] at hfalse; exact Bool.noConfusion hfalse
      · intro _; omega
      · intro h1; omega

theorem cluePass_lt_four :
    ∀ (l : List (Nat × Nat)) (pool : List Nat), ∀ c ∈ cluePass l pool,
      c < 4 := by
  intro l
  induction l with
  | nil => intro pool c hc; simp [cluePass] at hc
  | cons p rest ih =>
    intro pool c hc
    unfold cluePass at hc
    split_ifs at hc with h1 h2 <;>
      rcases List.mem_cons.mp hc with h | h
    · omega
    · exact ih pool c h
    · omega
    · exact ih (removeFirst p.1 pool) c h
    · omega
    · exact ih pool c h

theorem cluePass_length :
    ∀ (l : List (Nat × Nat)) (pool : List Nat),
      (cluePass l pool).length = l.length := by
  intro l
  induction l with
  | nil => intro pool; rfl
  | cons p rest ih =>
    intro pool
    unfold cluePass
    split_ifs <;> simp [ih]

/-- Deserialization inverts serialization on 4-digit clues. -/
theorem deserialize_serialize (c : List Nat) (h4 : c.length = 4)
    (hlt : ∀ x ∈ c, x < 4) :
    deserializeClue (serializeClue c) = c := by
  rcases c with _ | ⟨a, _ | ⟨b, _ | ⟨u, _ | ⟨v, _ | ⟨w, t⟩⟩⟩⟩⟩ <;>
    simp only [List.length] at h4 <;> try omega
  have ha := hlt a (by simp)
  have hb := hlt b (by simp)
  have hu := hlt u (by simp)
  have hv := hlt v (by simp)
  simp only [serializeClue, deserializeClue, List.foldr, List.cons.injEq,
    and_true]
  refine ⟨?_, ?_, ?_, ?_⟩ <;> omega

/-- The clue computed from two separated 4-digit combinations has four
digits, each below 4. -/
theorem getClueFromGuess_shape (x y : Nat) :
    (getClueFromGuess (separateCombinationDigits x)
        (separateCombinationDigits y)).length = 4 ∧
    ∀ c ∈ getClueFromGuess (separateCombinationDigits x)
        (separateCombinationDigits y), c < 4 := by
  unfold getClueFromGuess
  constructor
  · rw [cluePass_length]
    simp [separateCombinationDigits]
  · intro c hc
    exact cluePass_lt_four _ _ c hc

/-- The two operations that can store a clue: the on-chain giveClue and the
aggregated-proof submission. -/
def Action.givesClue : Action → Prop
  | .submitGameProof _ _ => True
  | .giveClue _ _ _ _ => True
  | _ => False

/-- C4 (amended): in every reachable state, the stored isSolved flag never
falls back from 1, and it rises from 0 to 1 only through giveClue or
submitGameProof, only when the newly stored serialized clue deserializes to
all hits, and only from an entry turn count of at most 2 * maxAttempts
(giveClue admits equality for the clue answering the final guess;
submitGameProof additionally forces strict inequality). -/
theorem C4_isSolved_transition {hash : List Nat → Nat} {s s' : ContractState}
    {a : Action} (hr : Reachable hash s) (hstep : stepFn hash a s = some s') :
    (s.game.isSolved = 1 → s'.game.isSolved = 1) ∧
    (s.game.isSolved = 0 → s'.game.isSolved = 1 →
      Action.givesClue a ∧
      checkIfSolved (deserializeClue s'.game.serializedClue) = true ∧
      s.game.turnCount ≤ 2 * s.game.maxAttempts) := by
  obtain ⟨iht, ihm, ihs, ihf, ihinit, ihcb, ihsol⟩ := reachable_wf hr
  cases a with
  | initGame m r =>
    simp only [stepFn] at hstep
    obtain ⟨g, hsome, hmk⟩ := Option.map_eq_some'.mp hstep
    obtain ⟨hinit, h5, h15, hg⟩ := initGame_some hsome
    obtain ⟨e1, e2, e3⟩ := tms_eq (g := g) (t := 0) (m := m) (s := 0)
      (by rw [hg]) (by omega) (by omega)
    subst hmk
    dsimp only
    constructor
    · intro h1
      have h0 : s.game = initialState.game := ihinit hinit
      rw [h0] at h1
      exact absurd h1 (by decide)
    · intro _ h1
      omega
  | createGame sender secret salt reward =>
    simp only [stepFn] at hstep
    obtain ⟨g, hsome, hmk⟩ := Option.map_eq_some'.mp hstep
    obtain ⟨hinit, htc0, hval, hg⟩ := createGame_some hsome
    obtain ⟨e1, e2, e3⟩ := tms_eq (g := g)
      (t := s.game.turnCount + 1) (m := s.game.maxAttempts)
      (s := s.game.isSolved) (by rw [hg]) (by omega) (by omega)
    subst hmk
    dsimp only
    constructor
    · intro h1
      exact absurd (ihsol h1) (by omega)
    · intro h0 h1
      rw [e3] at h1
      omega
  | acceptGame slot sender =>
    simp only [stepFn] at hstep
    obtain ⟨p, hsome, hmk⟩ := Option.map_eq_some'.mp hstep
    obtain ⟨hinit, hcb0, htc1, hrw, hslot, hp⟩ := acceptGame_some hsome
    obtain ⟨e1, e2, e3⟩ := tms_congr (a := p.1) (b := s.game) (by rw [hp])
    subst hmk
    dsimp only
    constructor
    · intro h1
      rw [e3]
      exact h1
    · intro h0 h1
      rw [e3] at h1
      omega
  | submitGameProof slot out =>
    simp only [stepFn] at hstep
    split at hstep
    case isFalse => exact Option.noConfusion hstep
    case isTrue hc =>
      obtain ⟨g, hsome, hmk⟩ := Option.map_eq_some'.mp hstep
      obtain ⟨hinit, hcb, hnf, hs0, ho1, ho2, ho3, hgt, hg⟩ :=
        submitGameProof_some hsome
      obtain ⟨e1, e2, e3⟩ := tms_eq (g := g) (t := out.turnCount)
        (m := s.game.maxAttempts) (by rw [hg]) hc (by omega)
      subst hmk
      dsimp only
      constructor
      · intro h1
        omega
      · intro h0 h1
        rw [e3] at h1
        have hP : checkIfSolved (deserializeClue out.serializedClue) = true ∧
            ¬ s.game.maxAttempts * 2 ≤ out.turnCount := by
          by_contra hc2
          rw [if_neg hc2] at h1
          omega
        obtain ⟨hchk, hbound⟩ := hP
        refine ⟨trivial, ?_, ?_⟩
        · have hser : g.serializedClue = out.serializedClue := by rw [hg]
          rw [hser]
          exact hchk
        · omega
  | claimReward slot sender =>
    simp only [stepFn] at hstep
    obtain ⟨p, hsome, hmk⟩ := Option.map_eq_some'.mp hstep
    obtain ⟨-, -, -, hp⟩ := claimReward_some hsome
    rw [hp] at hmk
    subst hmk
    dsimp only
    exact ⟨fun h1 => h1, fun h0 h1 => absurd h1 (by omega)⟩
  | penalizeCodeBreaker sender pk =>
    simp only [stepFn] at hstep
    obtain ⟨p, hsome, hmk⟩ := Option.map_eq_some'.mp hstep
    obtain ⟨-, -, -, hp⟩ := penalizeCodeBreaker_some hsome
    rw [hp] at hmk
    subst hmk
    dsimp only
    exact ⟨fun h1 => h1, fun h0 h1 => absurd h1 (by omega)⟩
  | penalizeCodeMaster sender pk =>
    simp only [stepFn] at hstep
    obtain ⟨p, hsome, hmk⟩ := Option.map_eq_some'.mp hstep
    obtain ⟨-, -, -, hp⟩ := penalizeCodeMaster_some hsome
    rw [hp] at hmk
    subst hmk
    dsimp only
    exact ⟨fun h1 => h1, fun h0 h1 => absurd h1 (by omega)⟩
  | makeGuess slot sender guess =>
    simp only [stepFn] at hstep
    obtain ⟨g, hsome, hmk⟩ := Option.map_eq_some'.mp hstep
    obtain ⟨hinit, hnf, hs0, hpar, hlt, hwho, hval, hg⟩ :=
      makeGuess_some hsome
    obtain ⟨e1, e2, e3⟩ := tms_eq (g := g)
      (t := s.game.turnCount + 1) (m := s.game.maxAttempts)
      (s := s.game.isSolved) (by rw [hg]) (by omega) (by omega)
    subst hmk
    dsimp only
    constructor
    · intro h1
      omega
    · intro h0 h1
      rw [e3] at h1
      omega
  | giveClue slot sender secret salt =>
    simp only [stepFn] at hstep
    obtain ⟨g, hsome, hmk⟩ := Option.map_eq_some'.mp hstep
    obtain ⟨hinit, hnf, hcm, hle, hs0, hpar, hsol, hg⟩ :=
      giveClue_some hsome
    obtain ⟨e1, e2, e3⟩ := tms_eq (g := g)
      (t := s.game.turnCount + 1) (m := s.game.maxAttempts) (by rw [hg])
      (by omega) (by omega)
    subst hmk
    dsimp only
    constructor
    · intro h1
      omega
    · intro h0 h1
      rw [e3] at h1
      have hP : checkIfSolved (getClueFromGuess
          (separateCombinationDigits s.game.unseparatedGuess)
          (separateCombinationDigits secret)) = true := by
        by_contra hc2
        rw [if_neg hc2] at h1
        omega
      refine ⟨trivial, ?_, ?_⟩
      · have hser : g.serializedClue = serializeClue (getClueFromGuess
            (separateCombinationDigits s.game.unseparatedGuess)
            (separateCombinationDigits secret)) := by rw [hg]
        rw [hser]
        obtain ⟨hlen, hdig⟩ :=
          getClueFromGuess_shape s.game.unseparatedGuess secret
        rw [deserialize_serialize _ hlen hdig]
        exact hP
      · omega

/-- C1: on an initialized, accepted, not-finalized, not-solved game,
submitGameProof succeeds exactly when the verified proof output matches
the stored codeBreakerId, codeMasterId and solutionHash and carries a
strictly larger turn count; on success the contract adopts the proof's
turnCount, lastGuess and serializedClue. -/
theorem C1_submitGameProof_conditions (slot : Nat) (out : PublicOutput)
    (st : GameState) (hcb : st.codeBreakerId ≠ 0)
    (hnf : slot < st.finalizeSlot) (hsol : st.isSolved = 0)
    (htc : out.turnCount < 256) (hm : st.maxAttempts < 256) :
    ((submitGameProof slot out true st).isSome = true ↔
      (out.codeBreakerId = st.codeBreakerId ∧
       out.codeMasterId = st.codeMasterId ∧
       out.solutionHash = st.solutionHash ∧
       st.turnCount < out.turnCount)) ∧
    (∀ g, submitGameProof slot out true st = some g →
      g.turnCount = out.turnCount ∧ g.unseparatedGuess = out.lastGuess ∧
      g.serializedClue = out.serializedClue) := by
  constructor
  · constructor
    · intro hs
      obtain ⟨g, hg⟩ := Option.isSome_iff_exists.mp hs
      obtain ⟨-, -, -, -, h5, h6, h7, h8, -⟩ := submitGameProof_some hg
      exact ⟨h5, h6, h7, h8⟩
    · intro ⟨h5, h6, h7, h8⟩
      unfold submitGameProof
      rw [if_pos rfl, if_pos hcb, if_pos hnf, if_pos hsol, if_pos h5,
        if_pos h6, if_pos h7, if_pos h8]
      rfl
  · intro g hg
    obtain ⟨-, -, -, -, -, -, -, -, hgeq⟩ := submitGameProof_some hg
    obtain ⟨e1, e2, e3⟩ := tms_eq (g := g) (t := out.turnCount)
      (m := st.maxAttempts) (by rw [hgeq]) htc hm
    exact ⟨e1, by rw [hgeq], by rw [hgeq]⟩

/-- C2: a successful claimReward call requires the caller's identity hash
to match the stored codeMasterId or codeBreakerId, requires the caller to
be the winner (codeMaster iff unsolved, codeBreaker iff solved), and pays
out exactly the stored rewardAmount to the caller. -/
theorem C2_claimReward_only_winner (hash : List Nat → Nat)
    (slot sender : Nat) (st g : GameState) (amt : Nat)
    (h : claimReward hash slot sender st = some (g, amt)) :
    (st.codeMasterId = hash [sender] ∨ st.codeBreakerId = hash [sender]) ∧
    ((st.codeMasterId = hash [sender] ∧ st.isSolved = 0) ∨
     (st.codeBreakerId = hash [sender] ∧ st.isSolved = 1)) ∧
    amt = st.rewardAmount := by
  obtain ⟨h1, h2, h3, hp⟩ := claimReward_some h
  exact ⟨h2, h3, congrArg Prod.snd hp⟩

/-- C5 (amended): claimReward enforces only current slot ≥ stored
finalizeSlot — vacuously true when finalizeSlot is still 0 — together with
the identity and winner checks; an unset finalizeSlot does not by itself
make the call fail. -/
theorem C5_claimReward_characterization (hash : List Nat → Nat)
    (slot sender : Nat) (st : GameState) :
    claimReward hash slot sender st = some (st, st.rewardAmount) ↔
    (st.finalizeSlot ≤ slot ∧
     (st.codeMasterId = hash [sender] ∨ st.codeBreakerId = hash [sender]) ∧
     ((st.codeMasterId = hash [sender] ∧ st.isSolved = 0) ∨
      (st.codeBreakerId = hash [sender] ∧ st.isSolved = 1))) := by
  constructor
  · intro h
    obtain ⟨h1, h2, h3, -⟩ := claimReward_some h
    exact ⟨h1, h2, h3⟩
  · intro ⟨h1, h2, h3⟩
    unfold claimReward
    rw [if_pos h1, if_pos h2, if_pos h3]

/-- C6: a successful acceptGame call entered with turnCount = 1 and an
unset codeBreakerId escrows exactly the stored rewardAmount from the
caller, binds codeBreakerId to the caller's identity hash, doubles the
stored reward and sets finalizeSlot to the current slot plus
GAME_DURATION. -/
theorem C6_acceptGame_spec (hash : List Nat → Nat) (slot sender : Nat)
    (isInit : Bool) (st g : GameState) (escrow : Nat)
    (h : acceptGame hash slot sender isInit st = some (g, escrow)) :
    st.turnCount = 1 ∧ st.codeBreakerId = 0 ∧ escrow = st.rewardAmount ∧
    g.codeBreakerId = hash [sender] ∧
    g.rewardAmount = st.rewardAmount * 2 ∧
    g.finalizeSlot = slot + GAME_DURATION := by
  obtain ⟨hinit, hcb0, htc1, hrw, hslot, hp⟩ := acceptGame_some h
  have hg : g = { st with
      codeBreakerId := hash [sender]
      rewardFinalizeSlot := compressRewardAndFinalizeSlot
        (st.rewardAmount * 2) (slot + GAME_DURATION) } :=
    congrArg Prod.fst hp
  obtain ⟨f1, f2⟩ := rfs_eq (g := g) (r := st.rewardAmount * 2)
    (f := slot + GAME_DURATION) (by rw [hg]) hslot
  exact ⟨htc1, hcb0, congrArg Prod.snd hp, by rw [hg], f1, f2⟩

/-- C7: every giveClue call whose supplied secret digits and salt do not
hash to the stored solutionHash fails, for every caller, slot and game
state. -/
theorem C7_giveClue_requires_commitment (hash : List Nat → Nat)
    (slot sender secret salt : Nat) (isInit : Bool) (st : GameState)
    (hne : st.solutionHash ≠
      hash (separateCombinationDigits secret ++ [salt])) :
    giveClue hash slot sender secret salt isInit st = none := by
  cases hgc : giveClue hash slot sender secret salt isInit st with
  | none => rfl
  | some g => exact absurd (giveClue_some hgc).2.2.2.2.2.2.1 hne

/-- C8: on an initialized game, penalizeCodeBreaker (resp.
penalizeCodeMaster) succeeds and pays the stored rewardAmount — leaving
the state untouched — exactly when the caller is the stored referee and
the supplied public key hashes to the stored codeMasterId (resp.
codeBreakerId); no other precondition (finalizeSlot, slot, turn count,
isSolved) is checked. -/
theorem C8_penalize_characterization (hash : List Nat → Nat)
    (sender pk : Nat) (st : GameState) :
    (penalizeCodeBreaker hash sender pk true st =
        some (st, st.rewardAmount) ↔
      st.refereeId = hash [sender] ∧ st.codeMasterId = hash [pk]) ∧
    (penalizeCodeMaster hash sender pk true st =
        some (st, st.rewardAmount) ↔
      st.refereeId = hash [sender] ∧ st.codeBreakerId = hash [pk]) := by
  constructor <;> constructor
  · intro h
    obtain ⟨-, h2, h3, -⟩ := penalizeCodeBreaker_some h
    exact ⟨h2, h3⟩
  · intro ⟨h2, h3⟩
    unfold penalizeCodeBreaker
    rw [if_pos rfl, if_pos h2, if_pos h3]
  · intro h
    obtain ⟨-, h2, h3, -⟩ := penalizeCodeMaster_some h
    exact ⟨h2, h3⟩
  · intro ⟨h2, h3⟩
    unfold penalizeCodeMaster
    rw [if_pos rfl, if_pos h2, if_pos h3]

/-- C9: while finalizeSlot is still stored as 0 (the game was never
accepted), every makeGuess, giveClue and submitGameProof call fails: the
not-finalized check demands current slot < finalizeSlot and no slot lies
below 0. -/
theorem C9_unaccepted_game_frozen (hash : List Nat → Nat)
    (slot sender guess secret salt : Nat) (isInit : Bool)
    (out : PublicOutput) (st : GameState) (h0 : st.finalizeSlot = 0) :
    makeGuess hash slot sender guess isInit st = none ∧
    giveClue hash slot sender secret salt isInit st = none ∧
    submitGameProof slot out isInit st = none := by
  refine ⟨?_, ?_, ?_⟩
  · cases hm : makeGuess hash slot sender guess isInit st with
    | none => rfl
    | some g =>
        have := (makeGuess_some hm).2.1
        omega
  · cases hgc : giveClue hash slot sender secret salt isInit st with
    | none => rfl
    | some g =>
        have := (giveClue_some hgc).2.1
        omega
  · cases hs : submitGameProof slot out isInit st with
    | none => rfl
    | some g =>
        have := (submitGameProof_some hs).2.2.1
        omega

/-- C10: a successful claimReward, penalizeCodeBreaker or
penalizeCodeMaster call returns the game state unchanged: none of the
eight on-chain fields (including the packed rewardAmount/finalizeSlot
slot) is modified; the only effect is the balance transfer. -/
theorem C10_payout_frame (hash : List Nat → Nat)
    (slot sender rsender cmPk cbPk : Nat) (isInit : Bool)
    (s1 s2 s3 : GameState) :
    (∀ p, claimReward hash slot sender s1 = some p → p.1 = s1) ∧
    (∀ p, penalizeCodeBreaker hash rsender cmPk isInit s2 = some p →
      p.1 = s2) ∧
    (∀ p, penalizeCodeMaster hash rsender cbPk isInit s3 = some p →
      p.1 = s3) := by
  refine ⟨?_, ?_, ?_⟩ <;> intro p h
  · rw [(claimReward_some h).2.2.2]
  · rw [(penalizeCodeBreaker_some h).2.2.2]
  · rw [(penalizeCodeMaster_some h).2.2.2]

/-- A concrete stand-in for Poseidon used to evaluate the model on closed
inputs; injective on every input this development feeds it. -/
def hashDemo : List Nat → Nat :=
  fun l => l.foldl (fun acc d => acc * 100 + d + 1) 7

/-- Calls reaching a created-but-never-accepted game: referee 3,
codeMaster 5, secret 1234, salt 9, reward 100000. -/
def createdTrace : List Action :=
  [Action.initGame 5 3, Action.createGame 5 1234 9 100000]

/-- `createdTrace` followed by codeBreaker 6 accepting at slot 0. -/
def acceptedTrace : List Action :=
  createdTrace ++ [Action.acceptGame 0 6]

/-- `acceptedTrace` followed by four wrong guess/clue rounds and a fifth,
correct, guess: the turn count reaches 2 * maxAttempts with the game still
unsolved and the winning guess on chain. -/
def c4Trace : List Action :=
  acceptedTrace ++
  [Action.makeGuess 0 6 4321, Action.giveClue 0 5 1234 9,
   Action.makeGuess 0 6 4321, Action.giveClue 0 5 1234 9,
   Action.makeGuess 0 6 4321, Action.giveClue 0 5 1234 9,
   Action.makeGuess 0 6 4321, Action.giveClue 0 5 1234 9,
   Action.makeGuess 0 6 1234]

/-- State after `createdTrace`: turnCount 1, reward 100000 escrowed,
finalizeSlot still 0. -/
def createdState : ContractState :=
  ⟨true, ⟨1281, 706, 0, 704, 70203040510, 0, 0, 429496729600000⟩⟩

/-- State after `acceptedTrace`: codeBreakerId bound to hashDemo [6] = 707,
pool 200000, finalizeSlot 10, turnCount still 1. -/
def acceptedState : ContractState :=
  ⟨true, ⟨1281, 706, 707, 704, 70203040510, 0, 0, 858993459200010⟩⟩

/-- State after `acceptedTrace` and a first, correct, guess:
turnCount 2. -/
def guessedState : ContractState :=
  ⟨true, ⟨1282, 706, 707, 704, 70203040510, 1234, 0, 858993459200010⟩⟩

/-- State after the clue on `guessedState`: solved, turnCount 3. -/
def solvedState : ContractState :=
  ⟨true, ⟨66819, 706, 707, 704, 70203040510, 1234, 170, 858993459200010⟩⟩

/-- State after `c4Trace`: turnCount 10 = 2 * maxAttempts, unsolved, the
correct guess stored. -/
def c4State : ContractState :=
  ⟨true, ⟨1290, 706, 707, 704, 70203040510, 1234, 85, 858993459200010⟩⟩

/-- State after the final clue on `c4State`: solved at turnCount 11. -/
def c4StateAfter : ContractState :=
  ⟨true, ⟨66827, 706, 707, 704, 70203040510, 1234, 170, 858993459200010⟩⟩

/-- A verified-proof public output matching `acceptedState`: winning last
guess, all-hits clue, turn count 5. -/
def demoOutput : PublicOutput :=
  ⟨706, 707, 70203040510, 1234, 170, 5⟩

theorem reachable_createdState : Reachable hashDemo createdState :=
  reachable_runActions hashDemo createdTrace initialState createdState
    Reachable.base (by decide)

theorem reachable_acceptedState : Reachable hashDemo acceptedState :=
  reachable_runActions hashDemo acceptedTrace initialState acceptedState
    Reachable.base (by decide)

theorem reachable_guessedState : Reachable hashDemo guessedState :=
  reachable_runActions hashDemo
    (acceptedTrace ++ [Action.makeGuess 0 6 1234]) initialState guessedState
    Reachable.base (by decide)

theorem reachable_c4State : Reachable hashDemo c4State :=
  reachable_runActions hashDemo c4Trace initialState c4State
    Reachable.base (by decide)

/-- C3 fails on the code: on the reachable state right after acceptGame
(codeBreakerId bound to hashDemo [6] and nonzero, turnCount still 1), a
makeGuess call signed by the distinct identity 8 succeeds — the eager
`setCodeBreakerId` under `Provable.if` fires because turnCount = 1 — and
overwrites codeBreakerId with the intruder's hash. -/
theorem C3_codeBreakerId_overwritten :
    Reachable hashDemo acceptedState ∧
    acceptedState.game.codeBreakerId = hashDemo [6] ∧
    acceptedState.game.codeBreakerId ≠ 0 ∧
    hashDemo [8] ≠ hashDemo [6] ∧
    makeGuess hashDemo 0 8 4321 true acceptedState.game =
      some ⟨1282, 706, 709, 704, 70203040510, 4321, 0, 858993459200010⟩ ∧
    (709 : Nat) = hashDemo [8] :=
  ⟨reachable_acceptedState, by decide, by decide, by decide, by decide,
   by decide⟩

/-- C4 as stated is false: from the reachable state `c4State` with
turnCount = 10 = 2 * maxAttempts and the game unsolved, the codeMaster's
final giveClue still flips isSolved to 1, although the turn count is not
strictly below 2 * maxAttempts. -/
theorem C4_counterexample :
    Reachable hashDemo c4State ∧
    stepFn hashDemo (Action.giveClue 0 5 1234 9) c4State =
      some c4StateAfter ∧
    c4State.game.isSolved = 0 ∧ c4StateAfter.game.isSolved = 1 ∧
    ¬ c4State.game.turnCount < 2 * c4State.game.maxAttempts :=
  ⟨reachable_c4State, by decide, by decide, by decide, by decide⟩

/-- Witness for the amended C4 theorem at the concrete clue step solving
the game at turn count 2 ≤ 2 * maxAttempts. -/
theorem C4_isSolved_transition_witness :
    guessedState.game.isSolved = 0 ∧ solvedState.game.isSolved = 1 ∧
    ((guessedState.game.isSolved = 1 → solvedState.game.isSolved = 1) ∧
     (guessedState.game.isSolved = 0 → solvedState.game.isSolved = 1 →
       Action.givesClue (Action.giveClue 0 5 1234 9) ∧
       checkIfSolved (deserializeClue solvedState.game.serializedClue) =
         true ∧
       guessedState.game.turnCount ≤ 2 * guessedState.game.maxAttempts)) :=
  ⟨by decide, by decide,
   C4_isSolved_transition reachable_guessedState (by decide)⟩

/-- C5 as stated is false: on the reachable created-but-never-accepted
state, finalizeSlot is still 0, yet the codeMaster's claimReward call at
slot 0 succeeds and pays out the 100000 pool. -/
theorem C5_counterexample :
    Reachable hashDemo createdState ∧
    createdState.game.finalizeSlot = 0 ∧
    claimReward hashDemo 0 5 createdState.game =
      some (createdState.game, 100000) :=
  ⟨reachable_createdState, by decide, by decide⟩

/-- Witness for C1 on the accepted demo game and a matching winning proof
output with turn count 5. -/
theorem C1_submitGameProof_conditions_witness :
    acceptedState.game.codeBreakerId ≠ 0 ∧
    0 < acceptedState.game.finalizeSlot ∧
    acceptedState.game.isSolved = 0 ∧
    demoOutput.turnCount < 256 ∧ acceptedState.game.maxAttempts < 256 ∧
    (((submitGameProof 0 demoOutput true acceptedState.game).isSome =
        true ↔
      (demoOutput.codeBreakerId = acceptedState.game.codeBreakerId ∧
       demoOutput.codeMasterId = acceptedState.game.codeMasterId ∧
       demoOutput.solutionHash = acceptedState.game.solutionHash ∧
       acceptedState.game.turnCount < demoOutput.turnCount)) ∧
     (∀ g, submitGameProof 0 demoOutput true acceptedState.game = some g →
       g.turnCount = demoOutput.turnCount ∧
       g.unseparatedGuess = demoOutput.lastGuess ∧
       g.serializedClue = demoOutput.serializedClue)) :=
  ⟨by decide, by decide, by decide, by decide, by decide,
   C1_submitGameProof_conditions 0 demoOutput acceptedState.game
     (by decide) (by decide) (by decide) (by decide) (by decide)⟩

/-- Witness for C2: the codeBreaker claims the 200000 pool of the solved
demo game at slot 10. -/
theorem C2_claimReward_only_winner_witness :
    claimReward hashDemo 10 6 solvedState.game =
      some (solvedState.game, 200000) ∧
    ((solvedState.game.codeMasterId = hashDemo [6] ∨
      solvedState.game.codeBreakerId = hashDemo [6]) ∧
     ((solvedState.game.codeMasterId = hashDemo [6] ∧
       solvedState.game.isSolved = 0) ∨
      (solvedState.game.codeBreakerId = hashDemo [6] ∧
       solvedState.game.isSolved = 1)) ∧
     (200000 : Nat) = solvedState.game.rewardAmount) :=
  ⟨by decide,
   C2_claimReward_only_winner hashDemo 10 6 solvedState.game
     solvedState.game 200000 (by decide)⟩

/-- Witness for C6: codeBreaker 6 accepts the created demo game at
slot 0. -/
theorem C6_acceptGame_spec_witness :
    acceptGame hashDemo 0 6 true createdState.game =
      some (acceptedState.game, 100000) ∧
    (createdState.game.turnCount = 1 ∧
     createdState.game.codeBreakerId = 0 ∧
     (100000 : Nat) = createdState.game.rewardAmount ∧
     acceptedState.game.codeBreakerId = hashDemo [6] ∧
     acceptedState.game.rewardAmount = createdState.game.rewardAmount * 2 ∧
     acceptedState.game.finalizeSlot = 0 + GAME_DURATION) :=
  ⟨by decide,
   C6_acceptGame_spec hashDemo 0 6 true createdState.game
     acceptedState.game 100000 (by decide)⟩

/-- Witness for C7: a giveClue attempt with the right digits but the wrong
salt (8 instead of 9) fails even at the codeMaster's proper turn. -/
theorem C7_giveClue_requires_commitment_witness :
    guessedState.game.solutionHash ≠
      hashDemo (separateCombinationDigits 1234 ++ [8]) ∧
    giveClue hashDemo 0 5 1234 8 true guessedState.game = none :=
  ⟨by decide,
   C7_giveClue_requires_commitment hashDemo 0 5 1234 8 true
     guessedState.game (by decide)⟩

/-- Witness for C9 on the created-but-never-accepted demo game. -/
theorem C9_unaccepted_game_frozen_witness :
    createdState.game.finalizeSlot = 0 ∧
    (makeGuess hashDemo 0 6 1234 true createdState.game = none ∧
     giveClue hashDemo 0 6 1234 9 true createdState.game = none ∧
     submitGameProof 0 demoOutput true createdState.game = none) :=
  ⟨by decide,
   C9_unaccepted_game_frozen hashDemo 0 6 1234 1234 9 true demoOutput
     createdState.game (by decide)⟩

/-- Witness for C10: a successful claim on the solved demo game and both
referee penalties on the accepted demo game leave the state fields
untouched. -/
theorem C10_payout_frame_witness :
    claimReward hashDemo 10 6 solvedState.game =
      some (solvedState.game, 200000) ∧
    penalizeCodeBreaker hashDemo 3 5 true acceptedState.game =
      some (acceptedState.game, 200000) ∧
    penalizeCodeMaster hashDemo 3 6 true acceptedState.game =
      some (acceptedState.game, 200000) ∧
    ((∀ p, claimReward hashDemo 10 6 solvedState.game = some p →
        p.1 = solvedState.game) ∧
     (∀ p, penalizeCodeBreaker hashDemo 3 5 true acceptedState.game =
        some p → p.1 = acceptedState.game) ∧
     (∀ p, penalizeCodeMaster hashDemo 3 6 true acceptedState.game =
        some p → p.1 = acceptedState.game)) :=
  ⟨by decide, by decide, by decide,
   C10_payout_frame hashDemo 10 6 3 5 6 true solvedState.game
     acceptedState.game acceptedState.game⟩

end Mastermind
